import Mathlib

/-!
Verification development for the PII Detection & Masking Engine of the
agent-explainer repository.

The engine lives in `src/security/privacy/pii_detector.ts` (regex catalog,
per-category maskers, `detectAndMaskPII`, `containsPII`, `analyzeText`),
is parameterized by the Policy Context in
`src/security/privacy/PrivacyContext.tsx` (`privacyStrategyMap`, `maskPII`,
provider state and its localStorage load), and is applied to nested JSON
structures by `maskObjectPii` in `src/middleware.ts`.

The JavaScript regexes are embedded as an abstract syntax tree `RE` together
with a backtracking matcher `mtch` that follows the ECMAScript semantics for
the constructs the six patterns use: literals, character classes, ordered
alternation, greedy `?`/`+`/`{m,n}`, lazy `*?`, and the word boundary `\b`.
`String.prototype.replace` with a global regex and a replacer function is
embedded as `replaceAll` (leftmost match, resume after the match end, the
replacer result inserted literally), and `RegExp.prototype.test` on a
`g`-flagged regex is embedded as `regexTestFrom`, which starts at the
regex object's mutable `lastIndex` and updates it exactly as ECMAScript
does (set to the match end on success, reset to 0 on failure or overrun).
-/

set_option maxRecDepth 100000

namespace AgentExplainer

/-! ## Character predicates (ECMAScript notions used by the patterns) -/

/-- Decimal digit, the `\d` class. -/
def isDigitC (c : Char) : Bool := '0' ≤ c && c ≤ '9'

/-- ASCII lower-case letter, the `[a-z]` range. -/
def isLowerC (c : Char) : Bool := 'a' ≤ c && c ≤ 'z'

/-- ASCII upper-case letter, the `[A-Z]` range. -/
def isUpperC (c : Char) : Bool := 'A' ≤ c && c ≤ 'Z'

/-- ASCII letter. -/
def isAlphaC (c : Char) : Bool := isLowerC c || isUpperC c

/-- Word character for `\b`: `[A-Za-z0-9_]`. -/
def isWordC (c : Char) : Bool := isAlphaC c || isDigitC c || c = '_'

/-- ECMAScript backslash-s: whitespace and line terminators
(space, tab, LF, VT, FF, CR, NBSP, Ogham space, the U+2000 to U+200A range,
LS, PS, NNBSP, MMSP, ideographic space, BOM). -/
def isSpaceC (c : Char) : Bool :=
  c = ' ' || c = '\t' || c = '\n' || c = '\x0b' || c = '\x0c' || c = '\r' ||
  c.toNat = 0xA0 || c.toNat = 0x1680 ||
  (0x2000 ≤ c.toNat && c.toNat ≤ 0x200A) ||
  c.toNat = 0x2028 || c.toNat = 0x2029 || c.toNat = 0x202F ||
  c.toNat = 0x205F || c.toNat = 0x3000 || c.toNat = 0xFEFF

/-! ## Regex syntax and backtracking matcher -/

/-- Abstract syntax for the regex constructs used by the six PII patterns. -/
inductive RE where
  /-- Empty regex, matches nothing and consumes nothing. -/
  | eps : RE
  /-- A literal character. -/
  | lit : Char → RE
  /-- A character class given by its membership predicate. -/
  | cls : (Char → Bool) → RE
  /-- Concatenation. -/
  | seq : RE → RE → RE
  /-- Ordered alternation: the left alternative has priority. -/
  | alt : RE → RE → RE
  /-- Greedy `?`. -/
  | quest : RE → RE
  /-- `*`; the flag is true for the lazy form `*?`. -/
  | star : Bool → RE → RE
  /-- Greedy bounded repetition `{min,max}`. -/
  | rep : Nat → Nat → RE → RE
  /-- The word boundary assertion `\b`. -/
  | wordB : RE

/-- True when a `\b` assertion holds between `prev` and `next`. -/
def boundaryAt (prev next : Option Char) : Bool :=
  (match prev with | some c => isWordC c | none => false) !=
  (match next with | some c => isWordC c | none => false)

/-- Backtracking matcher in continuation-passing style.  The continuation
receives the character preceding the rest of the input (for `\b`) and the
remaining input; alternatives are tried in ECMAScript priority order
(left alternative first, greedy quantifiers longest-first, lazy quantifiers
shortest-first).  `fuel` bounds the recursion depth and is chosen large
enough by the callers below. -/
def mtch : Nat → RE → Option Char → List Char →
    (Option Char → List Char → Option (List Char)) → Option (List Char)
  | 0, _, _, _, _ => none
  | fuel + 1, re, prev, s, k =>
    match re with
    | .eps => k prev s
    | .lit c =>
      match s with
      | [] => none
      | x :: xs => if x = c then k (some x) xs else none
    | .cls p =>
      match s with
      | [] => none
      | x :: xs => if p x then k (some x) xs else none
    | .seq a b =>
      mtch fuel a prev s (fun p2 s2 => mtch fuel b p2 s2 k)
    | .alt a b =>
      match mtch fuel a prev s k with
      | some r => some r
      | none => mtch fuel b prev s k
    | .quest a =>
      match mtch fuel a prev s k with
      | some r => some r
      | none => k prev s
    | .star lazyQ a =>
      if lazyQ then
        match k prev s with
        | some r => some r
        | none => mtch fuel a prev s (fun p2 s2 => mtch fuel (.star lazyQ a) p2 s2 k)
      else
        match mtch fuel a prev s (fun p2 s2 => mtch fuel (.star lazyQ a) p2 s2 k) with
        | some r => some r
        | none => k prev s
    | .rep mn mx a =>
      if mx = 0 then k prev s
      else if mn = 0 then
        match mtch fuel a prev s (fun p2 s2 => mtch fuel (.rep 0 (mx - 1) a) p2 s2 k) with
        | some r => some r
        | none => k prev s
      else
        mtch fuel a prev s (fun p2 s2 => mtch fuel (.rep (mn - 1) (mx - 1) a) p2 s2 k)
    | .wordB =>
      if boundaryAt prev s.head? then k prev s else none

/-- Fuel bound used for a match attempt on suffix `s`: far larger than any
recursion depth the six patterns can reach on `s`. -/
def matchFuel (s : List Char) : Nat := 40 * s.length + 400

/-- Attempt to match `re` at the start of `s` (with `prev` the character just
before `s` in the full subject).  Returns the number of characters the match
consumes, choosing the alternative of highest ECMAScript priority. -/
def tryAt (re : RE) (prev : Option Char) (s : List Char) : Option Nat :=
  match mtch (matchFuel s) re prev s (fun _ rest => some rest) with
  | some rest => some (s.length - rest.length)
  | none => none

/-- First match of `re` at or after the current position: `prev` is the
character before the current position, `i` the absolute index of the current
position.  Returns the absolute start and end index of the match. -/
def findFromAux (re : RE) : Option Char → Nat → List Char → Option (Nat × Nat)
  | prev, i, [] =>
    match tryAt re prev [] with
    | some n => some (i, i + n)
    | none => none
  | prev, i, c :: tl =>
    match tryAt re prev (c :: tl) with
    | some n => some (i, i + n)
    | none => findFromAux re (some c) (i + 1) tl

/-- ECMAScript `RegExp.prototype.test` on a `g`-flagged regex: starts the
search at the regex object's `lastIndex`, returns the success flag and the
new `lastIndex` (the match end on success, 0 on failure or when `lastIndex`
exceeds the subject length). -/
def regexTestFrom (re : RE) (t : String) (lastIndex : Nat) : Bool × Nat :=
  if lastIndex > t.data.length then (false, 0)
  else
    let prev := if lastIndex = 0 then none else t.data.get? (lastIndex - 1)
    match findFromAux re prev lastIndex (t.data.drop lastIndex) with
    | some (_, e) => (true, e)
    | none => (false, 0)

/-- Scanner for the global `String.prototype.replace`: walks the subject,
replaces every leftmost non-overlapping match using `repl`, and resumes just
after each match (advancing one character after an empty match, as
ECMAScript does).  The `\b` context is taken from the original subject
characters.  `fuel` is at least the subject length plus one. -/
def replScan : Nat → RE → (List Char → List Char) → Option Char → List Char → List Char
  | 0, _, _, _, s => s
  | fuel + 1, re, repl, prev, s =>
    match tryAt re prev s with
    | none =>
      match s with
      | [] => []
      | c :: tl => c :: replScan fuel re repl (some c) tl
    | some 0 =>
      repl [] ++
        match s with
        | [] => []
        | c :: tl => c :: replScan fuel re repl (some c) tl
    | some (n + 1) =>
      let m := s.take (n + 1)
      repl m ++ replScan fuel re repl m.getLast? (s.drop (n + 1))

/-- Embedding of `text.replace(regex, repl)` for a `g`-flagged `regex` and a replacer
function `repl` whose result is inserted literally. -/
def replaceAll (re : RE) (repl : String → String) (t : String) : String :=
  String.mk (replScan (t.data.length + 1) re (fun m => (repl (String.mk m)).data) none t.data)

/-! ## The pattern catalog of `pii_detector.ts`

Each entry transliterates one element of the `PII_PATTERNS` array: its
`type` tag, its regex, and its `mask(match, options)` function. -/

/-- Greedy `+`: one occurrence followed by a greedy star. -/
def plusG (r : RE) : RE := .seq r (.star false r)

/-- Exactly `n` occurrences, the `{n}` quantifier. -/
def repN (n : Nat) (r : RE) : RE := .rep n n r

/-- A word spelled out as a sequence of character literals. -/
def litStr (s : String) : RE := s.data.foldr (fun c r => .seq (.lit c) r) .eps

/-- Sequence of a list of regexes. -/
def seqAll (rs : List RE) : RE := rs.foldr .seq .eps

/-- The `\d` class. -/
def digitRE : RE := .cls isDigitC

/-- Email local-part class `[A-Za-z0-9._%+-]`. -/
def emailLocalC (c : Char) : Bool :=
  isAlphaC c || isDigitC c || c = '.' || c = '_' || c = '%' || c = '+' || c = '-'

/-- Email domain class `[A-Za-z0-9.-]`. -/
def emailDomainC (c : Char) : Bool := isAlphaC c || isDigitC c || c = '.' || c = '-'

/-- Email top-level-domain class, written `[A-Z|a-z]` in the source; the
literal `|` inside the class is kept. -/
def emailTldC (c : Char) : Bool := isUpperC c || c = '|' || isLowerC c

/-- Phone separator class `[\s.-]`. -/
def phoneSepC (c : Char) : Bool := isSpaceC c || c = '.' || c = '-'

/-- Credit-card separator class `[ -]`. -/
def cardSepC (c : Char) : Bool := c = ' ' || c = '-'

/-- Address letters-and-whitespace class `[A-Za-z\s]`. -/
def alphaSpaceC (c : Char) : Bool := isAlphaC c || isSpaceC c

/-- Source regex: `/\b[A-Za-z0-9._%+-]+@[A-Za-z0-9.-]+\.[A-Z|a-z]{2,}\b/g`. -/
def emailRE : RE := seqAll
  [.wordB, plusG (.cls emailLocalC), .lit '@', plusG (.cls emailDomainC),
   .lit '.', .cls emailTldC, plusG (.cls emailTldC), .wordB]

/-- Source regex:
`/\b(\+\d{1,3}[\s.-]?)?(\(?\d{3}\)?[\s.-]?)?\d{3}[\s.-]?\d{4}\b/g`. -/
def phoneRE : RE := seqAll
  [.wordB,
   .quest (seqAll [.lit '+', .rep 1 3 digitRE, .quest (.cls phoneSepC)]),
   .quest (seqAll [.quest (.lit '('), repN 3 digitRE, .quest (.lit ')'),
                   .quest (.cls phoneSepC)]),
   repN 3 digitRE, .quest (.cls phoneSepC), repN 4 digitRE, .wordB]

/-- Source regex: `/\b\d{3}[-]?\d{2}[-]?\d{4}\b/g`. -/
def ssnRE : RE := seqAll
  [.wordB, repN 3 digitRE, .quest (.lit '-'), repN 2 digitRE,
   .quest (.lit '-'), repN 4 digitRE, .wordB]

/-- Source regex: `/\b(?:\d[ -]*?){13,16}\b/g`. -/
def creditCardRE : RE := seqAll
  [.wordB, .rep 13 16 (.seq digitRE (.star true (.cls cardSepC))), .wordB]

/-- Source regex:
`/\b\d+\s+[A-Za-z\s]+,\s+[A-Za-z\s]+,\s+[A-Z]{2}\s+\d{5}(-\d{4})?\b/g`. -/
def addressRE : RE := seqAll
  [.wordB, plusG digitRE, plusG (.cls isSpaceC), plusG (.cls alphaSpaceC),
   .lit ',', plusG (.cls isSpaceC), plusG (.cls alphaSpaceC),
   .lit ',', plusG (.cls isSpaceC), repN 2 (.cls isUpperC),
   plusG (.cls isSpaceC), repN 5 digitRE,
   .quest (.seq (.lit '-') (repN 4 digitRE)), .wordB]

/-- Source regex: `/\b(Mr|Mrs|Ms|Dr|Prof)\.?\s+[A-Z][a-z]+\s+[A-Z][a-z]+\b/g`,
with the alternatives in source order. -/
def nameRE : RE := seqAll
  [.wordB,
   .alt (litStr "Mr") (.alt (litStr "Mrs") (.alt (litStr "Ms")
     (.alt (litStr "Dr") (litStr "Prof")))),
   .quest (.lit '.'), plusG (.cls isSpaceC),
   .cls isUpperC, plusG (.cls isLowerC), plusG (.cls isSpaceC),
   .cls isUpperC, plusG (.cls isLowerC), .wordB]

/-! ## Masking options and the per-category mask functions -/

/-- The `MaskingStrategy` union type.  The source spells the last variant
`partial`; it is called `partialReveal` here because `partial` is a Lean
keyword. -/
inductive MaskingStrategy where
  | redact
  | hash
  | tokenize
  | partialReveal
deriving DecidableEq, Repr

/-- The `PIIDetectorOptions` interface; `keepLastDigits` is an optional
field. -/
structure PIIDetectorOptions where
  strategy : MaskingStrategy
  preserveFormat : Bool
  keepLastDigits : Option Nat
deriving DecidableEq, Repr

/-- The `DEFAULT_OPTIONS` constant from the source. -/
def DEFAULT_OPTIONS : PIIDetectorOptions :=
  { strategy := .redact, preserveFormat := true, keepLastDigits := some 4 }

/-- The caller-supplied `Partial<PIIDetectorOptions>`: every field optional. -/
structure PIICustomOptions where
  strategy : Option MaskingStrategy
  preserveFormat : Option Bool
  keepLastDigits : Option Nat
deriving DecidableEq, Repr

/-- The option merge `{ ...DEFAULT_OPTIONS, ...customOptions }` (an absent
`customOptions` leaves the defaults). -/
def mergeOptions : Option PIICustomOptions → PIIDetectorOptions
  | none => DEFAULT_OPTIONS
  | some c =>
    { strategy := c.strategy.getD DEFAULT_OPTIONS.strategy,
      preserveFormat := c.preserveFormat.getD DEFAULT_OPTIONS.preserveFormat,
      keepLastDigits :=
        match c.keepLastDigits with
        | some k => some k
        | none => DEFAULT_OPTIONS.keepLastDigits }

/-- ECMAScript `ToInt32`: reduce an integer to the range of a signed 32-bit
integer (the `hash & hash` step of `hashData`). -/
def toInt32 (x : Int) : Int :=
  let m := x % 4294967296
  if m ≥ 2147483648 then m - 4294967296 else m

/-- One step of the `hashData` loop:
`hash = ((hash << 5) - hash) + charCode; hash = hash & hash`.  The shift
operates on the 32-bit truncation, as `<<` does in JavaScript. -/
def hashStep (h : Int) (c : Char) : Int :=
  toInt32 (toInt32 (h * 32) - h + (c.toNat : Int))

/-- The `hashData` function from the source: the 32-bit string hash, absolute value,
lower-case hexadecimal, first 8 characters. -/
def hashData (s : String) : String :=
  String.mk ((Nat.toDigits 16 (s.data.foldl hashStep 0).natAbs).take 8)

/-- The `options.keepLastDigits || 4` idiom: both an absent field and a zero
count (falsy in JavaScript) give 4. -/
def keepOrDefault : Option Nat → Nat
  | some k => if k = 0 then 4 else k
  | none => 4

/-- Embedding of `digits.slice(0, -keep).replace(/\d/g, m)` plus `digits.slice(-keep)`:
star out all but the last `keep` characters of the digit list. -/
def maskButLast (digits : List Char) (keep : Nat) : List Char :=
  (digits.take (digits.length - keep)).map (fun c => if isDigitC c then '*' else c)
    ++ digits.drop (digits.length - keep)

/-- The `preserveFormat` rebuild of the phone masker: walk the match,
substituting the masked digit list positionally for the digit characters and
keeping every other character. -/
def fillDigits : List Char → List Char → List Char
  | _, [] => []
  | masked, c :: tl =>
    if isDigitC c then masked.headD '*' :: fillDigits masked.tail tl
    else c :: fillDigits masked tl

/-- JavaScript `String.prototype.split` with a single-character separator:
`"a@b@c".split("@")` gives `["a","b","c"]` and `"".split("@")` gives
`[""]`. -/
def splitOnChar (sep : Char) : List Char → List (List Char)
  | [] => [[]]
  | c :: tl =>
    let r := splitOnChar sep tl
    if c = sep then [] :: r
    else
      match r with
      | [] => [[c]]
      | h :: t => (c :: h) :: t

/-- The email pattern's mask function. -/
def emailMask (m : String) (options : PIIDetectorOptions) : String :=
  if options.strategy = .redact then "[EMAIL REDACTED]"
  else if options.strategy = .partialReveal then
    let parts := (splitOnChar '@' m.data).map String.mk
    let username := (parts.get? 0).getD "undefined"
    let domain := (parts.get? 1).getD "undefined"
    String.mk (username.data.take 2) ++ "***@" ++ domain
  else if options.strategy = .hash then "[HASHED:" ++ hashData m ++ "]"
  else "[EMAIL PROTECTED]"

/-- The phone pattern's mask function. -/
def phoneMask (m : String) (options : PIIDetectorOptions) : String :=
  if options.strategy = .redact then "[PHONE REDACTED]"
  else if options.strategy = .partialReveal then
    let digits := m.data.filter isDigitC
    let keep := keepOrDefault options.keepLastDigits
    let masked := maskButLast digits keep
    if options.preserveFormat then String.mk (fillDigits masked m.data)
    else String.mk masked
  else "[PHONE PROTECTED]"

/-- The ssn pattern's mask function.  In the partial branch the source
compares the digit's offset in the whole match (hyphens included) against
`totalDigits - keep`, exactly as the `replace` callback receives it. -/
def ssnMask (m : String) (options : PIIDetectorOptions) : String :=
  if options.strategy = .redact then "[SSN REDACTED]"
  else if options.strategy = .partialReveal then
    let totalDigits := (m.data.filter isDigitC).length
    let keep := keepOrDefault options.keepLastDigits
    String.mk (m.data.mapIdx (fun i c =>
      if isDigitC c then
        if (totalDigits : Int) - (keep : Int) ≤ (i : Int) then c else '*'
      else c))
  else "[SSN PROTECTED]"

/-- The creditCard pattern's mask function; the partial branch works on the
digit list only, so separators are not carried into the result. -/
def creditCardMask (m : String) (options : PIIDetectorOptions) : String :=
  if options.strategy = .redact then "[CREDIT CARD REDACTED]"
  else if options.strategy = .partialReveal then
    let digits := m.data.filter isDigitC
    let keep := keepOrDefault options.keepLastDigits
    String.mk (maskButLast digits keep)
  else "[PAYMENT INFO PROTECTED]"

/-- The address pattern's mask function (unconditional). -/
def addressMask (_m : String) (_options : PIIDetectorOptions) : String :=
  "[ADDRESS REDACTED]"

/-- The name pattern's mask function (unconditional). -/
def nameMask (_m : String) (_options : PIIDetectorOptions) : String :=
  "[NAME REDACTED]"

/-- One entry of the `PII_PATTERNS` array. -/
structure DetectionPattern where
  ptype : String
  regex : RE
  mask : String → PIIDetectorOptions → String

/-- The ordered `PII_PATTERNS` catalog. -/
def PII_PATTERNS : List DetectionPattern :=
  [⟨"email", emailRE, emailMask⟩,
   ⟨"phone", phoneRE, phoneMask⟩,
   ⟨"ssn", ssnRE, ssnMask⟩,
   ⟨"creditCard", creditCardRE, creditCardMask⟩,
   ⟨"address", addressRE, addressMask⟩,
   ⟨"name", nameRE, nameMask⟩]

/-! ## The three public engine operations -/

/-- The engine entry `detectAndMaskPII(text, customOptions)`: a falsy (empty) text is returned
unchanged; otherwise every pattern is applied in catalog order, each
rewriting the running text. -/
def detectAndMaskPII (text : String) (customOptions : Option PIICustomOptions) : String :=
  bif text.data.isEmpty then text
  else
    let options := mergeOptions customOptions
    PII_PATTERNS.foldl (fun t p => replaceAll p.regex (fun m => p.mask m options) t) text

/-- The mutable `lastIndex` fields of the six module-level `g`-flagged regex
objects, in catalog order.  They persist between calls to `containsPII`. -/
structure PatternState where
  email : Nat
  phone : Nat
  ssn : Nat
  creditCard : Nat
  address : Nat
  name : Nat
deriving DecidableEq, Repr

/-- Fresh module state: every `lastIndex` is 0. -/
def initPatternState : PatternState := ⟨0, 0, 0, 0, 0, 0⟩

/-- The check `containsPII(text)`, that is `PII_PATTERNS.some(p => p.regex.test(text))`.
A falsy text returns false before any regex is consulted.  `test` on a
global regex resumes from the regex's `lastIndex` and mutates it, and
`some` stops at the first success, so the call both depends on and updates
the module state. -/
def containsPII (st : PatternState) (text : String) : Bool × PatternState :=
  bif text.data.isEmpty then (false, st)
  else
    let r1 := regexTestFrom emailRE text st.email
    let st1 := { st with email := r1.2 }
    if r1.1 then (true, st1) else
    let r2 := regexTestFrom phoneRE text st1.phone
    let st2 := { st1 with phone := r2.2 }
    if r2.1 then (true, st2) else
    let r3 := regexTestFrom ssnRE text st2.ssn
    let st3 := { st2 with ssn := r3.2 }
    if r3.1 then (true, st3) else
    let r4 := regexTestFrom creditCardRE text st3.creditCard
    let st4 := { st3 with creditCard := r4.2 }
    if r4.1 then (true, st4) else
    let r5 := regexTestFrom addressRE text st4.address
    let st5 := { st4 with address := r5.2 }
    if r5.1 then (true, st5) else
    let r6 := regexTestFrom nameRE text st5.name
    let st6 := { st5 with name := r6.2 }
    (r6.1, st6)

/-- The report `analyzeText(text)`: every pattern is tested independently after
resetting its `lastIndex` to 0, so the report is a pure function of the
text: the detected `type` tags in catalog order, plus the `hasPII` flag
`detectedTypes.length > 0`. -/
def analyzeText (text : String) : Bool × List String :=
  bif text.data.isEmpty then (false, [])
  else
    let detected := (PII_PATTERNS.filter
      (fun p => (regexTestFrom p.regex text 0).1)).map (fun p => p.ptype)
    (decide (0 < detected.length), detected)


/-! ## Policy Context (`PrivacyContext.tsx`) -/

/-- The `PrivacyLevel` union type. -/
inductive PrivacyLevel where
  | low
  | medium
  | high
  | maximum
deriving DecidableEq, Repr

/-- The `privacyStrategyMap` record: the fixed strategy preset of each level.
The `high` and `maximum` entries do not carry a `keepLastDigits` property. -/
def privacyStrategyMap : PrivacyLevel → PIICustomOptions
  | .low => ⟨some .partialReveal, some true, some 4⟩
  | .medium => ⟨some .partialReveal, some true, some 2⟩
  | .high => ⟨some .redact, some false, none⟩
  | .maximum => ⟨some .hash, some false, none⟩

/-- The guard `isValidPrivacyLevel` from the provider. -/
def isValidPrivacyLevel (s : String) : Bool :=
  (["low", "medium", "high", "maximum"] : List String).contains s

/-- The string of each recognized level read back as a `PrivacyLevel`. -/
def parsePrivacyLevel (s : String) : Option PrivacyLevel :=
  if s = "low" then some .low
  else if s = "medium" then some .medium
  else if s = "high" then some .high
  else if s = "maximum" then some .maximum
  else none

/-- The raw JavaScript property access `privacyStrategyMap[levelString]`:
one of the four keys yields its preset, any other string yields `undefined`
(no error is raised). -/
def privacyStrategyMapGet (s : String) : Option PIICustomOptions :=
  (parsePrivacyLevel s).map privacyStrategyMap

/-- The provider's `maskPII` body applied with an arbitrary level string:
`detectAndMaskPII(text, privacyStrategyMap[privacyLevel])`.  When the lookup
yields `undefined`, the option spread in `detectAndMaskPII` silently keeps
`DEFAULT_OPTIONS`. -/
def maskPIIAtLevel (levelStr : String) (text : String) : String :=
  detectAndMaskPII text (privacyStrategyMapGet levelStr)

/-! ## JSON values, `maskObjectPii`, and the persisted-settings load -/

/-- JSON-like runtime values (`null`, booleans, numbers, strings, arrays,
objects).  Numbers are carried as integers: the engine never inspects or
rewrites a number, so only their identity matters here.  An `undefined`
leaf collapses to `null`; both are returned unchanged by the source. -/
inductive Json where
  | null : Json
  | bool : Bool → Json
  | num : Int → Json
  | str : String → Json
  | arr : List Json → Json
  | obj : List (String × Json) → Json

mutual

/-- The recursive `maskObjectPii` from `middleware.ts`: `null`/`undefined` is returned as
is, a string leaf goes through `detectAndMaskPII` (with no custom options),
arrays and objects are rebuilt recursively, and every other primitive is
passed through unchanged. -/
def maskObjectPii : Json → Json
  | .null => .null
  | .str s => .str (detectAndMaskPII s none)
  | .arr xs => .arr (maskObjectPiiList xs)
  | .obj fs => .obj (maskObjectPiiFields fs)
  | .num n => .num n
  | .bool b => .bool b

/-- Recursion `obj.map(item => maskObjectPii(item))` over an array. -/
def maskObjectPiiList : List Json → List Json
  | [] => []
  | x :: xs => maskObjectPii x :: maskObjectPiiList xs

/-- The `Object.entries` rebuild over an object's fields. -/
def maskObjectPiiFields : List (String × Json) → List (String × Json)
  | [] => []
  | f :: fs => (f.1, maskObjectPii f.2) :: maskObjectPiiFields fs

end

/-- Whitespace accepted between JSON tokens. -/
def jsonWsC (c : Char) : Bool := c = ' ' || c = '\t' || c = '\n' || c = '\r'

/-- Consume an expected literal word. -/
def dropLit : List Char → List Char → Option (List Char)
  | [], s => some s
  | _ :: _, [] => none
  | c :: cs, x :: xs => if x = c then dropLit cs xs else none

/-- Consume the body of a JSON string after the opening quote, allowing any
escaped character (a lenient superset of the grammar, enough that rejection
implies a `JSON.parse` exception). -/
def takeJsonString : Nat → List Char → Option (String × List Char)
  | 0, _ => none
  | _ + 1, [] => none
  | fuel + 1, c :: tl =>
    if c = '"' then some ("", tl)
    else if c = '\\' then
      match tl with
      | [] => none
      | e :: tl2 =>
        match takeJsonString fuel tl2 with
        | some (s, rest) => some (String.mk (e :: s.data), rest)
        | none => none
    else
      match takeJsonString fuel tl with
      | some (s, rest) => some (String.mk (c :: s.data), rest)
      | none => none

/-- Consume one or more decimal digits. -/
def takeDigits1 (s : List Char) : Option (List Char × List Char) :=
  let ds := s.takeWhile isDigitC
  if ds.isEmpty then none else some (ds, s.drop ds.length)

mutual

/-- Parse a JSON value.  The numeric value keeps only the integer part (the
engine never looks at it); fractional and exponent parts are accepted and
skipped so that acceptance matches `JSON.parse` on all inputs used here. -/
def parseJsonVal : Nat → List Char → Option (Json × List Char)
  | 0, _ => none
  | fuel + 1, s =>
    match s.dropWhile jsonWsC with
    | [] => none
    | c :: tl =>
      if c = 'n' then (dropLit ("ull".data) tl).map (fun r => (Json.null, r))
      else if c = 't' then (dropLit ("rue".data) tl).map (fun r => (Json.bool true, r))
      else if c = 'f' then (dropLit ("alse".data) tl).map (fun r => (Json.bool false, r))
      else if c = '"' then
        match takeJsonString (fuel + 1) tl with
        | some (str, rest) => some (Json.str str, rest)
        | none => none
      else if c = '-' || isDigitC c then
        let body := if c = '-' then tl else c :: tl
        match takeDigits1 body with
        | none => none
        | some (ds, rest0) =>
          let rest1 :=
            match rest0 with
            | '.' :: r =>
              match takeDigits1 r with
              | some (_, r2) => some r2
              | none => none
            | _ => some rest0
          match rest1 with
          | none => none
          | some rest2 =>
            let rest3 :=
              match rest2 with
              | 'e' :: r => some r
              | 'E' :: r => some r
              | _ => none
            let restFinal :=
              match rest3 with
              | none => some rest2
              | some r =>
                let r2 := match r with
                  | '+' :: r3 => r3
                  | '-' :: r3 => r3
                  | _ => r
                match takeDigits1 r2 with
                | some (_, r3) => some r3
                | none => none
            match restFinal with
            | none => none
            | some rest4 =>
              let mag : Int := ds.foldl (fun n c => 10 * n + ((c.toNat : Int) - 48)) 0
              some (Json.num (if c = '-' then -mag else mag), rest4)
      else if c = '[' then parseJsonArr fuel (tl.dropWhile jsonWsC) true
      else if c = '\x7b' then parseJsonObj fuel (tl.dropWhile jsonWsC) true
      else none

/-- Parse the elements of an array after `[`; `first` is true before the
first element. -/
def parseJsonArr (fuel : Nat) (s : List Char) (first : Bool) : Option (Json × List Char) :=
  match fuel with
  | 0 => none
  | fuel + 1 =>
    match s with
    | ']' :: rest => if first then some (Json.arr [], rest) else none
    | _ =>
      match parseJsonVal fuel s with
      | none => none
      | some (v, rest) =>
        match rest.dropWhile jsonWsC with
        | ',' :: rest2 =>
          match parseJsonArr fuel (rest2.dropWhile jsonWsC) false with
          | some (Json.arr xs, rest3) => some (Json.arr (v :: xs), rest3)
          | _ => none
        | ']' :: rest2 => some (Json.arr [v], rest2)
        | _ => none

/-- Parse the members of an object after an opening brace. -/
def parseJsonObj (fuel : Nat) (s : List Char) (first : Bool) : Option (Json × List Char) :=
  match fuel with
  | 0 => none
  | fuel + 1 =>
    match s with
    | '\x7d' :: rest => if first then some (Json.obj [], rest) else none
    | '"' :: tl =>
      match takeJsonString (fuel + 1) tl with
      | none => none
      | some (key, rest) =>
        match rest.dropWhile jsonWsC with
        | ':' :: rest2 =>
          match parseJsonVal fuel rest2 with
          | none => none
          | some (v, rest3) =>
            match rest3.dropWhile jsonWsC with
            | ',' :: rest4 =>
              match parseJsonObj fuel (rest4.dropWhile jsonWsC) false with
              | some (Json.obj fs, rest5) => some (Json.obj ((key, v) :: fs), rest5)
              | _ => none
            | '\x7d' :: rest4 => some (Json.obj [(key, v)], rest4)
            | _ => none
        | _ => none
    | _ => none

end

/-- Embedding of `JSON.parse`: `none` models a thrown `SyntaxError`. -/
def jsonParse (s : String) : Option Json :=
  match parseJsonVal (s.data.length + 10) s.data with
  | some (v, rest) => if (rest.dropWhile jsonWsC).isEmpty then some v else none
  | none => none

/-- The provider's React state: the level is always one of the four literals
(writes are guarded), while the consent flag and the per-category toggles
are set from `JSON.parse` results, so they are arbitrary JSON at runtime. -/
structure ProviderState where
  privacyLevel : PrivacyLevel
  hasConsent : Json
  protectedDataTypes : Json

/-- The `useState` initial values: all six toggles on. -/
def defaultProtectedDataTypes : Json :=
  .obj [("email", .bool true), ("phone", .bool true), ("ssn", .bool true),
        ("creditCard", .bool true), ("address", .bool true), ("name", .bool true)]

/-- The `useState` initial values: level `medium`, no consent, every
category protected. -/
def defaultProviderState : ProviderState :=
  ⟨.medium, .bool false, defaultProtectedDataTypes⟩

/-- JavaScript truthiness of a `localStorage.getItem` result: `null`
(absent) and the empty string are falsy, any other string is truthy. -/
def truthyStore : Option String → Bool
  | none => false
  | some s => !s.data.isEmpty

/-- The `protectedDataTypes` step of the load effect: the source guard is
`if (storedDataTypes)`, so a falsy (absent or empty) slot is skipped
without parsing; a truthy slot goes through `JSON.parse`, whose failure
takes the error path. -/
def loadDataTypesStep (st : ProviderState) (storedDataTypes : Option String) :
    ProviderState × Bool :=
  bif truthyStore storedDataTypes then
    match jsonParse (storedDataTypes.getD "") with
    | none => (st, true)
    | some w => ({ st with protectedDataTypes := w }, false)
  else (st, false)

/-- The mount-time load effect over the three localStorage slots
(`privacyLevel`, `privacyConsent`, `protectedDataTypes`), each absent or a
stored string.  Each slot sits behind the source's truthiness guard
(`if (storedLevel && isValidPrivacyLevel(storedLevel))`,
`if (storedConsent)`, `if (storedDataTypes)`): an absent or empty slot is
skipped and the load continues with the next slot.  The body runs inside
one `try`: an invalid level string is skipped without error, a
`JSON.parse` failure on a truthy slot aborts the remaining steps, and the
surrounding `catch` only logs, so the caller always receives a state.
The boolean reports whether the error path was taken. -/
def loadPrivacySettings (storedLevel storedConsent storedDataTypes : Option String) :
    ProviderState × Bool :=
  let st0 := defaultProviderState
  let st1 :=
    bif truthyStore storedLevel then
      (let l := storedLevel.getD ""
       if isValidPrivacyLevel l then
         { st0 with privacyLevel := (parsePrivacyLevel l).getD st0.privacyLevel }
       else st0)
    else st0
  bif truthyStore storedConsent then
    match jsonParse (storedConsent.getD "") with
    | none => (st1, true)
    | some v => loadDataTypesStep { st1 with hasConsent := v } storedDataTypes
  else loadDataTypesStep st1 storedDataTypes

/-- The provider's `maskPII` closure: it reads the current level, resolves
the preset, and calls the engine.  The `protectedDataTypes` toggles are in
scope but are not consulted. -/
def ctxMaskPII (st : ProviderState) (text : String) : String :=
  detectAndMaskPII text (some (privacyStrategyMap st.privacyLevel))



/-! ## Digit canonicalization

None of the six patterns distinguishes one decimal digit from another:
every character class used is digit-uniform and every literal is a
non-digit.  `canon` collapses each digit to the representative `0`;
matching behaves identically on a string and on its canonicalization,
which lets concrete facts about a canonical subject transfer to every
digit instantiation. -/

/-- Collapse a decimal digit to the representative digit `0`; leave every
other character unchanged. -/
def canon (c : Char) : Char := bif isDigitC c then '0' else c

/-- The canonicalization of an optional preceding character. -/
def canonO : Option Char → Option Char := Option.map canon

/-- Regexes built only from digit-uniform character classes and non-digit
literals. -/
inductive DigitUniform : RE → Prop where
  | eps : DigitUniform .eps
  | lit (c : Char) (h : isDigitC c = false) : DigitUniform (.lit c)
  | cls (p : Char → Bool) (h : ∀ c, p (canon c) = p c) : DigitUniform (.cls p)
  | seq (a b : RE) (ha : DigitUniform a) (hb : DigitUniform b) : DigitUniform (.seq a b)
  | alt (a b : RE) (ha : DigitUniform a) (hb : DigitUniform b) : DigitUniform (.alt a b)
  | quest (a : RE) (ha : DigitUniform a) : DigitUniform (.quest a)
  | star (lz : Bool) (a : RE) (ha : DigitUniform a) : DigitUniform (.star lz a)
  | rep (mn mx : Nat) (a : RE) (ha : DigitUniform a) : DigitUniform (.rep mn mx a)
  | wordB : DigitUniform .wordB

/-- Whether the position walk of the global `replace` finds a match
anywhere at or after the current position. -/
def scanHasMatch (re : RE) : Option Char → List Char → Bool
  | prev, [] => (tryAt re prev []).isSome
  | prev, c :: tl => (tryAt re prev (c :: tl)).isSome || scanHasMatch re (some c) tl

/-! ## Auxiliary definitions used by the theorems -/

/-- The four strategy presets, one per privacy level. -/
def strategyPresets : List PIICustomOptions :=
  [privacyStrategyMap .low, privacyStrategyMap .medium,
   privacyStrategyMap .high, privacyStrategyMap .maximum]

/-- Every fixed placeholder string a masker can produce (the `[HASHED:...]`
markers are the one non-constant output). -/
def placeholderTokens : List String :=
  ["[EMAIL REDACTED]", "[PHONE REDACTED]", "[SSN REDACTED]",
   "[CREDIT CARD REDACTED]", "[ADDRESS REDACTED]", "[NAME REDACTED]",
   "[EMAIL PROTECTED]", "[PHONE PROTECTED]", "[SSN PROTECTED]",
   "[PAYMENT INFO PROTECTED]"]

/-- The nested object of the recursive-masking example:
`{ user: { email: "a@b.com", age: 30 }, tags: ["x@y.com"] }`. -/
def structureExample : Json :=
  .obj [("user", .obj [("email", .str "a@b.com"), ("age", .num 30)]),
        ("tags", .arr [.str "x@y.com"])]

/-- A Policy Context state whose ssn toggle is off while the level is
`high`. -/
def ssnDisabledState : ProviderState :=
  ⟨.high, .bool false,
   .obj [("email", .bool true), ("phone", .bool true), ("ssn", .bool false),
         ("creditCard", .bool true), ("address", .bool true), ("name", .bool true)]⟩

/-! ## Theorems -/

/-- Helper: a digit's code point lies between 48 and 57. -/
theorem digit_toNat (c : Char) (h : isDigitC c = true) : 48 ≤ c.toNat ∧ c.toNat ≤ 57 := by
  simp only [isDigitC, Bool.and_eq_true, decide_eq_true_eq] at h
  exact ⟨h.1, h.2⟩

/-- Helper: a digit differs from every non-digit character. -/
theorem digit_ne (c x : Char) (h : isDigitC c = true) (hx : isDigitC x = false) : c ≠ x := by
  intro e
  subst e
  rw [h] at hx
  cases hx

/-- Helper: digits are not ECMAScript whitespace. -/
theorem digit_isSpace (c : Char) (h : isDigitC c = true) : isSpaceC c = false := by
  have hb := digit_toNat c h
  have h1 : c ≠ ' ' := digit_ne c ' ' h (by decide)
  have h2 : c ≠ '\t' := digit_ne c '\t' h (by decide)
  have h3 : c ≠ '\n' := digit_ne c '\n' h (by decide)
  have h4 : c ≠ '\x0b' := digit_ne c '\x0b' h (by decide)
  have h5 : c ≠ '\x0c' := digit_ne c '\x0c' h (by decide)
  have h6 : c ≠ '\r' := digit_ne c '\r' h (by decide)
  simp only [isSpaceC, h1, h2, h3, h4, h5, h6, decide_eq_true_eq, Bool.or_eq_false_iff,
    decide_eq_false_iff_not, Bool.and_eq_false_iff, not_false_eq_true, true_and]
  refine ⟨⟨⟨⟨⟨⟨⟨⟨by omega, by omega⟩, by omega⟩, by omega⟩, by omega⟩, by omega⟩, by omega⟩,
    by omega⟩, by omega⟩

/-- Helper: digits are not lower-case letters. -/
theorem digit_isLower (c : Char) (h : isDigitC c = true) : isLowerC c = false := by
  have hb := digit_toNat c h
  simp only [isLowerC, Bool.and_eq_false_iff, decide_eq_false_iff_not]
  left
  intro hle
  have h97 : 97 ≤ c.toNat := hle
  omega

/-- Helper: digits are not upper-case letters. -/
theorem digit_isUpper (c : Char) (h : isDigitC c = true) : isUpperC c = false := by
  have hb := digit_toNat c h
  simp only [isUpperC, Bool.and_eq_false_iff, decide_eq_false_iff_not]
  left
  intro hle
  have h65 : 65 ≤ c.toNat := hle
  omega

/-- Helper: digits are not letters. -/
theorem digit_isAlpha (c : Char) (h : isDigitC c = true) : isAlphaC c = false := by
  simp [isAlphaC, digit_isLower c h, digit_isUpper c h]

/-- Canonicalizing a digit gives the representative digit. -/
theorem canon_digit (c : Char) (h : isDigitC c = true) : canon c = '0' := by
  simp [canon, h]

/-- Canonicalizing a non-digit is the identity. -/
theorem canon_nondigit (c : Char) (h : isDigitC c = false) : canon c = c := by
  simp [canon, h]

/-- The digit class is canon-invariant. -/
theorem isDigitC_canon (c : Char) : isDigitC (canon c) = isDigitC c := by
  by_cases h : isDigitC c = true
  · rw [canon_digit c h, h]; decide
  · rw [canon_nondigit c (by revert h; cases isDigitC c <;> simp)]

/-- The word-character class is canon-invariant. -/
theorem isWordC_canon (c : Char) : isWordC (canon c) = isWordC c := by
  by_cases h : isDigitC c = true
  · rw [canon_digit c h]
    simp [isWordC, h]
    decide
  · rw [canon_nondigit c (by revert h; cases isDigitC c <;> simp)]

/-- The email local-part class is canon-invariant. -/
theorem emailLocalC_canon (c : Char) : emailLocalC (canon c) = emailLocalC c := by
  by_cases h : isDigitC c = true
  · rw [canon_digit c h]
    simp [emailLocalC, h]
    decide
  · rw [canon_nondigit c (by revert h; cases isDigitC c <;> simp)]

/-- The email domain class is canon-invariant. -/
theorem emailDomainC_canon (c : Char) : emailDomainC (canon c) = emailDomainC c := by
  by_cases h : isDigitC c = true
  · rw [canon_digit c h]
    simp [emailDomainC, h]
    decide
  · rw [canon_nondigit c (by revert h; cases isDigitC c <;> simp)]

/-- The email top-level-domain class is canon-invariant. -/
theorem emailTldC_canon (c : Char) : emailTldC (canon c) = emailTldC c := by
  by_cases h : isDigitC c = true
  · rw [canon_digit c h]
    have hbar : c ≠ '|' := digit_ne c '|' h (by decide)
    simp [emailTldC, digit_isUpper c h, digit_isLower c h, hbar]
    exact ⟨by decide, by decide⟩
  · rw [canon_nondigit c (by revert h; cases isDigitC c <;> simp)]

/-- The phone separator class is canon-invariant. -/
theorem phoneSepC_canon (c : Char) : phoneSepC (canon c) = phoneSepC c := by
  by_cases h : isDigitC c = true
  · rw [canon_digit c h]
    have hdot : c ≠ '.' := digit_ne c '.' h (by decide)
    have hdash : c ≠ '-' := digit_ne c '-' h (by decide)
    simp [phoneSepC, digit_isSpace c h, hdot, hdash]
    decide
  · rw [canon_nondigit c (by revert h; cases isDigitC c <;> simp)]

/-- The card separator class is canon-invariant. -/
theorem cardSepC_canon (c : Char) : cardSepC (canon c) = cardSepC c := by
  by_cases h : isDigitC c = true
  · rw [canon_digit c h]
    have hsp : c ≠ ' ' := digit_ne c ' ' h (by decide)
    have hdash : c ≠ '-' := digit_ne c '-' h (by decide)
    simp [cardSepC, hsp, hdash]
  · rw [canon_nondigit c (by revert h; cases isDigitC c <;> simp)]

/-- The whitespace class is canon-invariant. -/
theorem isSpaceC_canon (c : Char) : isSpaceC (canon c) = isSpaceC c := by
  by_cases h : isDigitC c = true
  · rw [canon_digit c h, digit_isSpace c h]
    decide
  · rw [canon_nondigit c (by revert h; cases isDigitC c <;> simp)]

/-- The letters-and-whitespace class is canon-invariant. -/
theorem alphaSpaceC_canon (c : Char) : alphaSpaceC (canon c) = alphaSpaceC c := by
  by_cases h : isDigitC c = true
  · rw [canon_digit c h]
    simp [alphaSpaceC, digit_isAlpha c h, digit_isSpace c h]
    exact ⟨by decide, by decide⟩
  · rw [canon_nondigit c (by revert h; cases isDigitC c <;> simp)]

/-- The upper-case class is canon-invariant. -/
theorem isUpperC_canon (c : Char) : isUpperC (canon c) = isUpperC c := by
  by_cases h : isDigitC c = true
  · rw [canon_digit c h, digit_isUpper c h]
    decide
  · rw [canon_nondigit c (by revert h; cases isDigitC c <;> simp)]

/-- The lower-case class is canon-invariant. -/
theorem isLowerC_canon (c : Char) : isLowerC (canon c) = isLowerC c := by
  by_cases h : isDigitC c = true
  · rw [canon_digit c h, digit_isLower c h]
    decide
  · rw [canon_nondigit c (by revert h; cases isDigitC c <;> simp)]

/-- The word-boundary test is canon-invariant. -/
theorem boundaryAt_canon (p q : Option Char) :
    boundaryAt (canonO p) (canonO q) = boundaryAt p q := by
  cases p <;> cases q <;> simp [boundaryAt, canonO, isWordC_canon]



/-- Matching is invariant under digit canonicalization: for a digit-uniform
regex, running the matcher on the canonicalized subject (with a
continuation that mirrors the original one on canonicalized arguments)
gives the canonicalization of the original run. -/
theorem mtch_canon (fuel : Nat) :
    ∀ (re : RE), DigitUniform re →
    ∀ (prev : Option Char) (s : List Char)
      (k k2 : Option Char → List Char → Option (List Char)),
      (∀ p2 s2, k2 (canonO p2) (s2.map canon) = (k p2 s2).map (List.map canon)) →
      mtch fuel re (canonO prev) (s.map canon) k2 =
        (mtch fuel re prev s k).map (List.map canon) := by
  induction fuel with
  | zero =>
    intro re _ prev s k k2 _
    rfl
  | succ fuel ih =>
    intro re hre prev s k k2 hk
    cases hre with
    | eps =>
      simpa only [mtch] using hk prev s
    | lit c hc =>
      cases s with
      | nil => rfl
      | cons x xs =>
        simp only [List.map_cons, mtch]
        by_cases hx : x = c
        · have hxd : isDigitC x = false := by rw [hx]; exact hc
          rw [canon_nondigit x hxd]
          simp only [hx, if_pos]
          have h3 := hk (some c) xs
          have h4 : canonO (some c) = some c := by
            simp [canonO, canon_nondigit c hc]
          rw [h4] at h3
          exact h3
        · have h2 : ¬ canon x = c := by
            by_cases hxd : isDigitC x = true
            · rw [canon_digit x hxd]
              intro e
              rw [← e] at hc
              exact absurd hc (by decide)
            · rw [canon_nondigit x (by revert hxd; cases isDigitC x <;> simp)]
              exact hx
          simp [hx, h2]
    | cls p hp =>
      cases s with
      | nil => rfl
      | cons x xs =>
        simp only [List.map_cons, mtch, hp x]
        by_cases hpx : p x = true
        · simp only [hpx, if_pos]
          exact hk (some x) xs
        · simp [hpx]
    | seq a b ha hb =>
      simp only [mtch]
      exact ih a ha prev s _ _ (fun p2 s2 => ih b hb p2 s2 k k2 hk)
    | alt a b ha hb =>
      simp only [mtch]
      rw [ih a ha prev s k k2 hk, ih b hb prev s k k2 hk]
      cases mtch fuel a prev s k <;> simp
    | quest a ha =>
      simp only [mtch]
      rw [ih a ha prev s k k2 hk]
      cases mtch fuel a prev s k
      · simpa using hk prev s
      · simp
    | star lz a ha =>
      cases lz
      · simp only [mtch, Bool.false_eq_true, if_neg, reduceIte]
        rw [ih a ha prev s _ _
          (fun p2 s2 => ih (.star false a) (.star false a ha) p2 s2 k k2 hk)]
        cases mtch fuel a prev s (fun p2 s2 => mtch fuel (.star false a) p2 s2 k)
        · simpa using hk prev s
        · simp
      · simp only [mtch, reduceIte]
        rw [hk prev s]
        cases k prev s
        · simp only [Option.map_none]
          exact ih a ha prev s _ _
            (fun p2 s2 => ih (.star true a) (.star true a ha) p2 s2 k k2 hk)
        · simp
    | rep mn mx a ha =>
      simp only [mtch]
      by_cases hmx : mx = 0
      · simp only [hmx, if_pos]
        simpa using hk prev s
      · simp only [hmx, if_neg, reduceIte]
        by_cases hmn : mn = 0
        · simp only [hmn, if_pos]
          rw [ih a ha prev s _ _
            (fun p2 s2 => ih (.rep 0 (mx - 1) a) (.rep 0 (mx - 1) a ha) p2 s2 k k2 hk)]
          cases mtch fuel a prev s (fun p2 s2 => mtch fuel (.rep 0 (mx - 1) a) p2 s2 k)
          · simpa using hk prev s
          · simp
        · simp only [hmn, if_neg, reduceIte]
          exact ih a ha prev s _ _
            (fun p2 s2 => ih (.rep (mn - 1) (mx - 1) a) (.rep (mn - 1) (mx - 1) a ha) p2 s2 k k2 hk)
    | wordB =>
      simp only [mtch]
      have hh : (s.map canon).head? = canonO s.head? := by
        cases s <;> simp [canonO]
      rw [hh, boundaryAt_canon]
      cases hb : boundaryAt prev s.head?
      · simp
      · simp only [if_pos]
        exact hk prev s


/-- A match attempt consumes the same number of characters on a subject
and on its digit canonicalization. -/
theorem tryAt_canon (re : RE) (h : DigitUniform re) (prev : Option Char) (s : List Char) :
    tryAt re (canonO prev) (s.map canon) = tryAt re prev s := by
  unfold tryAt
  have hf : matchFuel (s.map canon) = matchFuel s := by
    simp [matchFuel]
  rw [hf, mtch_canon (matchFuel s) re h prev s (fun _ rest => some rest)
    (fun _ rest => some rest) (fun p2 s2 => rfl)]
  cases mtch (matchFuel s) re prev s (fun _ rest => some rest) with
  | none => rfl
  | some rest => simp

/-- The position walk finds a match on a subject exactly when it does on
the subject's digit canonicalization. -/
theorem scanHasMatch_canon (re : RE) (h : DigitUniform re) :
    ∀ (prev : Option Char) (s : List Char),
      scanHasMatch re (canonO prev) (s.map canon) = scanHasMatch re prev s := by
  intro prev s
  induction s generalizing prev with
  | nil =>
    show ((tryAt re (canonO prev) ([].map canon)).isSome : Bool) = _
    rw [tryAt_canon re h prev []]
    rfl
  | cons c tl ihs =>
    show ((tryAt re (canonO prev) ((c :: tl).map canon)).isSome || _) = _
    rw [tryAt_canon re h prev (c :: tl)]
    have h2 : canonO (some c) = some (canon c) := rfl
    have h3 := ihs (some c)
    rw [h2] at h3
    show _ = ((tryAt re prev (c :: tl)).isSome || scanHasMatch re (some c) tl)
    rw [← h3]

/-- When the position walk finds no match anywhere, the global replace
returns the subject unchanged. -/
theorem replScan_of_no_match (fuel : Nat) (re : RE) (f : List Char → List Char) :
    ∀ (prev : Option Char) (s : List Char), scanHasMatch re prev s = false →
      replScan fuel re f prev s = s := by
  induction fuel with
  | zero =>
    intro prev s _
    rfl
  | succ fuel ih =>
    intro prev s h
    cases s with
    | nil =>
      have h1 : tryAt re prev [] = none := by
        have h2 : (tryAt re prev []).isSome = false := h
        cases htry : tryAt re prev [] with
        | none => rfl
        | some n => rw [htry] at h2; cases h2
      simp [replScan, h1]
    | cons c tl =>
      have h0 : ((tryAt re prev (c :: tl)).isSome || scanHasMatch re (some c) tl) = false := h
      rw [Bool.or_eq_false_iff] at h0
      have h1 : tryAt re prev (c :: tl) = none := by
        cases htry : tryAt re prev (c :: tl) with
        | none => rfl
        | some n => rw [htry] at h0; cases h0.1
      simp [replScan, h1, ih (some c) tl h0.2]

/-- When the position walk finds no match in the text, `replaceAll`
returns the text unchanged. -/
theorem replaceAll_id (re : RE) (f : String → String) (t : String)
    (h : scanHasMatch re none t.data = false) : replaceAll re f t = t := by
  unfold replaceAll
  rw [replScan_of_no_match (t.data.length + 1) re _ none t.data h]

/-- A word list of non-digit characters folds to a digit-uniform regex. -/
theorem du_litList : ∀ (l : List Char), (∀ c ∈ l, isDigitC c = false) →
    DigitUniform (l.foldr (fun c r => RE.seq (.lit c) r) .eps)
  | [], _ => .eps
  | c :: tl, h =>
    .seq _ _ (.lit c (h c (by simp)))
      (du_litList tl (fun c2 hc2 => h c2 (by simp [hc2])))

/-- A word of non-digit characters is a digit-uniform regex. -/
theorem du_litStr (w : String) (h : ∀ c ∈ w.data, isDigitC c = false) :
    DigitUniform (litStr w) :=
  du_litList w.data h

/-- The email regex is digit-uniform. -/
theorem du_emailRE : DigitUniform emailRE := by
  unfold emailRE seqAll plusG
  simp only [List.foldr]
  repeat'
    first
    | exact DigitUniform.eps
    | exact DigitUniform.wordB
    | exact DigitUniform.lit _ (by decide)
    | exact DigitUniform.cls _ emailLocalC_canon
    | exact DigitUniform.cls _ emailDomainC_canon
    | exact DigitUniform.cls _ emailTldC_canon
    | apply DigitUniform.seq
    | apply DigitUniform.star

/-- The phone regex is digit-uniform. -/
theorem du_phoneRE : DigitUniform phoneRE := by
  unfold phoneRE seqAll repN digitRE
  simp only [List.foldr]
  repeat'
    first
    | exact DigitUniform.eps
    | exact DigitUniform.wordB
    | exact DigitUniform.lit _ (by decide)
    | exact DigitUniform.cls _ isDigitC_canon
    | exact DigitUniform.cls _ phoneSepC_canon
    | apply DigitUniform.seq
    | apply DigitUniform.rep
    | apply DigitUniform.quest

/-- The ssn regex is digit-uniform. -/
theorem du_ssnRE : DigitUniform ssnRE := by
  unfold ssnRE seqAll repN digitRE
  simp only [List.foldr]
  repeat'
    first
    | exact DigitUniform.eps
    | exact DigitUniform.wordB
    | exact DigitUniform.lit _ (by decide)
    | exact DigitUniform.cls _ isDigitC_canon
    | apply DigitUniform.seq
    | apply DigitUniform.rep
    | apply DigitUniform.quest

/-- The credit-card regex is digit-uniform. -/
theorem du_creditCardRE : DigitUniform creditCardRE := by
  unfold creditCardRE seqAll digitRE
  simp only [List.foldr]
  repeat'
    first
    | exact DigitUniform.eps
    | exact DigitUniform.wordB
    | exact DigitUniform.cls _ isDigitC_canon
    | exact DigitUniform.cls _ cardSepC_canon
    | apply DigitUniform.seq
    | apply DigitUniform.rep
    | apply DigitUniform.star

/-- The address regex is digit-uniform. -/
theorem du_addressRE : DigitUniform addressRE := by
  unfold addressRE seqAll plusG repN digitRE
  simp only [List.foldr]
  repeat'
    first
    | exact DigitUniform.eps
    | exact DigitUniform.wordB
    | exact DigitUniform.lit _ (by decide)
    | exact DigitUniform.cls _ isDigitC_canon
    | exact DigitUniform.cls _ isSpaceC_canon
    | exact DigitUniform.cls _ alphaSpaceC_canon
    | exact DigitUniform.cls _ isUpperC_canon
    | apply DigitUniform.seq
    | apply DigitUniform.star
    | apply DigitUniform.rep
    | apply DigitUniform.quest

/-- The name regex is digit-uniform. -/
theorem du_nameRE : DigitUniform nameRE := by
  unfold nameRE seqAll plusG
  simp only [List.foldr]
  repeat'
    first
    | exact DigitUniform.eps
    | exact DigitUniform.wordB
    | exact DigitUniform.lit _ (by decide)
    | exact DigitUniform.cls _ isSpaceC_canon
    | exact DigitUniform.cls _ isUpperC_canon
    | exact DigitUniform.cls _ isLowerC_canon
    | exact du_litStr _ (by decide)
    | apply DigitUniform.seq
    | apply DigitUniform.alt
    | apply DigitUniform.star
    | apply DigitUniform.quest

/-- Helper: the array case of `maskObjectPii` is a `List.map`. -/
theorem maskObjectPiiList_eq_map (xs : List Json) :
    maskObjectPiiList xs = xs.map maskObjectPii := by
  induction xs with
  | nil => rfl
  | cons x xs ih => simp [maskObjectPiiList, ih]

/-- Helper: the object case of `maskObjectPii` maps over the field values. -/
theorem maskObjectPiiFields_eq_map (fs : List (String × Json)) :
    maskObjectPiiFields fs = fs.map (fun f => (f.1, maskObjectPii f.2)) := by
  induction fs with
  | nil => rfl
  | cons f fs ih => simp [maskObjectPiiFields, ih]

/-- C1 (counterexample): masking is not idempotent for every text under
every preset.  Under the low (partial-reveal) preset the first pass turns
`a@b.co@foo.com` into `a***@b.co@foo.com`, and a second pass rewrites the
leftover `b.co@foo.com` again. -/
theorem maskText_second_pass_changes_output :
    detectAndMaskPII
        (detectAndMaskPII "a@b.co@foo.com" (some (privacyStrategyMap .low)))
        (some (privacyStrategyMap .low)) ≠
      detectAndMaskPII "a@b.co@foo.com" (some (privacyStrategyMap .low)) := by
  decide

/-- C1 (amended): the placeholder tokens themselves are immune to
re-matching: a further `detectAndMaskPII` pass over any fixed placeholder,
under any of the four strategy presets, changes nothing. -/
theorem placeholders_immune_to_remasking :
    ∀ p ∈ placeholderTokens, ∀ o ∈ strategyPresets,
      detectAndMaskPII p (some o) = p := by
  decide

/-- Witness for `placeholders_immune_to_remasking` at a concrete placeholder
and preset. -/
theorem placeholders_immune_to_remasking_witness :
    "[EMAIL REDACTED]" ∈ placeholderTokens ∧
    privacyStrategyMap .low ∈ strategyPresets ∧
    detectAndMaskPII "[EMAIL REDACTED]" (some (privacyStrategyMap .low)) = "[EMAIL REDACTED]" :=
  ⟨by decide, by decide,
   placeholders_immune_to_remasking "[EMAIL REDACTED]" (by decide)
     (privacyStrategyMap .low) (by decide)⟩

/-- C2 (counterexample): the context-aware call path masks a category whose
toggle is off: with the ssn toggle disabled and level `high`, the ssn
occurrence is still rewritten. -/
theorem ctxMaskPII_masks_disabled_category :
    ctxMaskPII ssnDisabledState "SSN 123-45-6789" = "SSN [SSN REDACTED]" ∧
    "SSN [SSN REDACTED]" ≠ "SSN 123-45-6789" := by
  exact ⟨by decide, by decide⟩

/-- C2 (amended): the context-aware `maskPII` resolves the level's preset
but never consults the consent flag or the per-category toggles: its output
is independent of them, so a disabled category is masked exactly as an
enabled one. -/
theorem ctxMaskPII_ignores_toggles :
    (∀ (level : PrivacyLevel) (consent consent2 dt dt2 : Json) (text : String),
      ctxMaskPII ⟨level, consent, dt⟩ text = ctxMaskPII ⟨level, consent2, dt2⟩ text) ∧
    ctxMaskPII ssnDisabledState "123-45-6789" = "[SSN REDACTED]" := by
  exact ⟨fun _ _ _ _ _ _ => rfl, by decide⟩

/-- C3 (counterexample): with keep-last-4 preserve-format options, a
hyphen-grouped 16-digit card is masked to `************1111`: the
separators are dropped, not kept in their original positions. -/
theorem creditCard_partial_drops_separators :
    detectAndMaskPII "4111-1111-1111-1111" (some (privacyStrategyMap .low)) =
      "************1111" ∧
    ("************1111").data.contains '-' = false := by
  exact ⟨by decide, by decide⟩

/-- Helper: on an empty subject the global replace scanner returns the
empty subject when the regex has no match there. -/
theorem replScan_nil (fuel : Nat) (re : RE) (f : List Char → List Char) (prev : Option Char)
    (h : tryAt re prev [] = none) : replScan fuel re f prev [] = [] := by
  cases fuel with
  | zero => rfl
  | succ fuel => simp [replScan, h]

/-- Helper: one step of the global replace scanner at a position where the
match attempt succeeds consuming a positive number of characters. -/
theorem replScan_cons_match (fuel : Nat) (re : RE) (f : List Char → List Char)
    (prev : Option Char) (s : List Char) (n : Nat)
    (h : tryAt re prev s = some (n + 1)) :
    replScan (fuel + 1) re f prev s =
      f (s.take (n + 1)) ++ replScan fuel re f (s.take (n + 1)).getLast? (s.drop (n + 1)) := by
  simp [replScan, h]

set_option maxHeartbeats 1600000 in
/-- C3 (amended): for every 16-digit payment-card-like string in 4-4-4-4
grouping with space or hyphen separators, keep-last-4 preserve-format
masking returns twelve mask characters followed by exactly the last 4
original digits: the preceding digits are masked and the separators are
dropped (the preserve-format flag is not honored by the card masker).
The digits and the separators are arbitrary: matching is invariant under
digit canonicalization, so the concrete facts decided for the canonical
all-zero card transfer to every digit choice. -/
theorem creditCard_partial_keeps_last_four :
    ∀ (a1 a2 a3 a4 b1 b2 b3 b4 c1 c2 c3 c4 d1 d2 d3 d4 s1 s2 s3 : Char),
      isDigitC a1 = true → isDigitC a2 = true → isDigitC a3 = true → isDigitC a4 = true →
      isDigitC b1 = true → isDigitC b2 = true → isDigitC b3 = true → isDigitC b4 = true →
      isDigitC c1 = true → isDigitC c2 = true → isDigitC c3 = true → isDigitC c4 = true →
      isDigitC d1 = true → isDigitC d2 = true → isDigitC d3 = true → isDigitC d4 = true →
      (s1 = ' ' ∨ s1 = '-') → (s2 = ' ' ∨ s2 = '-') → (s3 = ' ' ∨ s3 = '-') →
      detectAndMaskPII (String.mk [a1, a2, a3, a4, s1, b1, b2, b3, b4, s2, c1, c2, c3, c4, s3, d1, d2, d3, d4]) (some (privacyStrategyMap .low)) =
        String.mk ['*', '*', '*', '*', '*', '*', '*', '*', '*', '*', '*', '*', d1, d2, d3, d4] := by
  intro a1 a2 a3 a4 b1 b2 b3 b4 c1 c2 c3 c4 d1 d2 d3 d4 s1 s2 s3
  intro ha1 ha2 ha3 ha4 hb1 hb2 hb3 hb4 hc1 hc2 hc3 hc4 hd1 hd2 hd3 hd4 hs1 hs2 hs3
  have hnd1 : isDigitC s1 = false := by rcases hs1 with rfl | rfl <;> decide
  have hnd2 : isDigitC s2 = false := by rcases hs2 with rfl | rfl <;> decide
  have hnd3 : isDigitC s3 = false := by rcases hs3 with rfl | rfl <;> decide
  have hstar : canon '*' = '*' := by decide
  have hescan : scanHasMatch emailRE none [a1, a2, a3, a4, s1, b1, b2, b3, b4, s2, c1, c2, c3, c4, s3, d1, d2, d3, d4] = false := by
    rw [← scanHasMatch_canon emailRE du_emailRE none [a1, a2, a3, a4, s1, b1, b2, b3, b4, s2, c1, c2, c3, c4, s3, d1, d2, d3, d4]]
    simp only [List.map_cons, List.map_nil, canon_digit a1 ha1, canon_digit a2 ha2, canon_digit a3 ha3, canon_digit a4 ha4, canon_digit b1 hb1, canon_digit b2 hb2, canon_digit b3 hb3, canon_digit b4 hb4, canon_digit c1 hc1, canon_digit c2 hc2, canon_digit c3 hc3, canon_digit c4 hc4, canon_digit d1 hd1, canon_digit d2 hd2, canon_digit d3 hd3, canon_digit d4 hd4,
      canon_nondigit s1 hnd1, canon_nondigit s2 hnd2, canon_nondigit s3 hnd3]
    rcases hs1 with rfl | rfl <;> rcases hs2 with rfl | rfl <;> rcases hs3 with rfl | rfl <;> decide
  have hpscan : scanHasMatch phoneRE none [a1, a2, a3, a4, s1, b1, b2, b3, b4, s2, c1, c2, c3, c4, s3, d1, d2, d3, d4] = false := by
    rw [← scanHasMatch_canon phoneRE du_phoneRE none [a1, a2, a3, a4, s1, b1, b2, b3, b4, s2, c1, c2, c3, c4, s3, d1, d2, d3, d4]]
    simp only [List.map_cons, List.map_nil, canon_digit a1 ha1, canon_digit a2 ha2, canon_digit a3 ha3, canon_digit a4 ha4, canon_digit b1 hb1, canon_digit b2 hb2, canon_digit b3 hb3, canon_digit b4 hb4, canon_digit c1 hc1, canon_digit c2 hc2, canon_digit c3 hc3, canon_digit c4 hc4, canon_digit d1 hd1, canon_digit d2 hd2, canon_digit d3 hd3, canon_digit d4 hd4,
      canon_nondigit s1 hnd1, canon_nondigit s2 hnd2, canon_nondigit s3 hnd3]
    rcases hs1 with rfl | rfl <;> rcases hs2 with rfl | rfl <;> rcases hs3 with rfl | rfl <;> decide
  have hsscan : scanHasMatch ssnRE none [a1, a2, a3, a4, s1, b1, b2, b3, b4, s2, c1, c2, c3, c4, s3, d1, d2, d3, d4] = false := by
    rw [← scanHasMatch_canon ssnRE du_ssnRE none [a1, a2, a3, a4, s1, b1, b2, b3, b4, s2, c1, c2, c3, c4, s3, d1, d2, d3, d4]]
    simp only [List.map_cons, List.map_nil, canon_digit a1 ha1, canon_digit a2 ha2, canon_digit a3 ha3, canon_digit a4 ha4, canon_digit b1 hb1, canon_digit b2 hb2, canon_digit b3 hb3, canon_digit b4 hb4, canon_digit c1 hc1, canon_digit c2 hc2, canon_digit c3 hc3, canon_digit c4 hc4, canon_digit d1 hd1, canon_digit d2 hd2, canon_digit d3 hd3, canon_digit d4 hd4,
      canon_nondigit s1 hnd1, canon_nondigit s2 hnd2, canon_nondigit s3 hnd3]
    rcases hs1 with rfl | rfl <;> rcases hs2 with rfl | rfl <;> rcases hs3 with rfl | rfl <;> decide
  have hcard : tryAt creditCardRE none [a1, a2, a3, a4, s1, b1, b2, b3, b4, s2, c1, c2, c3, c4, s3, d1, d2, d3, d4] = some (18 + 1) := by
    rw [← tryAt_canon creditCardRE du_creditCardRE none [a1, a2, a3, a4, s1, b1, b2, b3, b4, s2, c1, c2, c3, c4, s3, d1, d2, d3, d4]]
    simp only [List.map_cons, List.map_nil, canon_digit a1 ha1, canon_digit a2 ha2, canon_digit a3 ha3, canon_digit a4 ha4, canon_digit b1 hb1, canon_digit b2 hb2, canon_digit b3 hb3, canon_digit b4 hb4, canon_digit c1 hc1, canon_digit c2 hc2, canon_digit c3 hc3, canon_digit c4 hc4, canon_digit d1 hd1, canon_digit d2 hd2, canon_digit d3 hd3, canon_digit d4 hd4,
      canon_nondigit s1 hnd1, canon_nondigit s2 hnd2, canon_nondigit s3 hnd3]
    rcases hs1 with rfl | rfl <;> rcases hs2 with rfl | rfl <;> rcases hs3 with rfl | rfl <;> decide
  have hnil : tryAt creditCardRE (some d4) [] = none := by
    rw [← tryAt_canon creditCardRE du_creditCardRE (some d4) []]
    show tryAt creditCardRE (some (canon d4)) [] = none
    rw [canon_digit d4 hd4]
    decide
  have hascan : scanHasMatch addressRE none ['*', '*', '*', '*', '*', '*', '*', '*', '*', '*', '*', '*', d1, d2, d3, d4] = false := by
    rw [← scanHasMatch_canon addressRE du_addressRE none ['*', '*', '*', '*', '*', '*', '*', '*', '*', '*', '*', '*', d1, d2, d3, d4]]
    simp only [List.map_cons, List.map_nil, canon_digit d1 hd1, canon_digit d2 hd2,
      canon_digit d3 hd3, canon_digit d4 hd4, hstar]
    decide
  have hnscan : scanHasMatch nameRE none ['*', '*', '*', '*', '*', '*', '*', '*', '*', '*', '*', '*', d1, d2, d3, d4] = false := by
    rw [← scanHasMatch_canon nameRE du_nameRE none ['*', '*', '*', '*', '*', '*', '*', '*', '*', '*', '*', '*', d1, d2, d3, d4]]
    simp only [List.map_cons, List.map_nil, canon_digit d1 hd1, canon_digit d2 hd2,
      canon_digit d3 hd3, canon_digit d4 hd4, hstar]
    decide
  have hfil : List.filter isDigitC [a1, a2, a3, a4, s1, b1, b2, b3, b4, s2, c1, c2, c3, c4, s3, d1, d2, d3, d4] = [a1, a2, a3, a4, b1, b2, b3, b4, c1, c2, c3, c4, d1, d2, d3, d4] := by
    simp only [List.filter, ha1, ha2, ha3, ha4, hb1, hb2, hb3, hb4, hc1, hc2, hc3, hc4, hd1, hd2, hd3, hd4, hnd1, hnd2, hnd3]
  have hmask : List.map (fun c => if isDigitC c then '*' else c) [a1, a2, a3, a4, b1, b2, b3, b4, c1, c2, c3, c4] ++ [d1, d2, d3, d4] =
      ['*', '*', '*', '*', '*', '*', '*', '*', '*', '*', '*', '*', d1, d2, d3, d4] := by
    simp only [List.map_cons, List.map_nil, ha1, ha2, ha3, ha4, hb1, hb2, hb3, hb4, hc1, hc2, hc3, hc4, hd1, hd2, hd3, hd4, if_pos, List.append_eq]
    rfl
  have hcc : creditCardMask (String.mk [a1, a2, a3, a4, s1, b1, b2, b3, b4, s2, c1, c2, c3, c4, s3, d1, d2, d3, d4]) (mergeOptions (some (privacyStrategyMap .low))) = String.mk ['*', '*', '*', '*', '*', '*', '*', '*', '*', '*', '*', '*', d1, d2, d3, d4] := by
    show (if (mergeOptions (some (privacyStrategyMap .low))).strategy = .redact then "[CREDIT CARD REDACTED]"
      else if (mergeOptions (some (privacyStrategyMap .low))).strategy = .partialReveal then
        String.mk (maskButLast ((String.mk [a1, a2, a3, a4, s1, b1, b2, b3, b4, s2, c1, c2, c3, c4, s3, d1, d2, d3, d4]).data.filter isDigitC)
          (keepOrDefault (mergeOptions (some (privacyStrategyMap .low))).keepLastDigits))
      else "[PAYMENT INFO PROTECTED]") = String.mk ['*', '*', '*', '*', '*', '*', '*', '*', '*', '*', '*', '*', d1, d2, d3, d4]
    norm_num
    show String.mk (maskButLast (List.filter isDigitC [a1, a2, a3, a4, s1, b1, b2, b3, b4, s2, c1, c2, c3, c4, s3, d1, d2, d3, d4]) (keepOrDefault (some 4))) = _
    rw [hfil]
    show String.mk (List.map (fun c => if isDigitC c then '*' else c) [a1, a2, a3, a4, b1, b2, b3, b4, c1, c2, c3, c4] ++ [d1, d2, d3, d4]) = _
    rw [hmask]
  have e4 : replaceAll creditCardRE (fun m => creditCardMask m (mergeOptions (some (privacyStrategyMap .low)))) (String.mk [a1, a2, a3, a4, s1, b1, b2, b3, b4, s2, c1, c2, c3, c4, s3, d1, d2, d3, d4]) =
      String.mk ['*', '*', '*', '*', '*', '*', '*', '*', '*', '*', '*', '*', d1, d2, d3, d4] := by
    unfold replaceAll
    rw [show (String.mk [a1, a2, a3, a4, s1, b1, b2, b3, b4, s2, c1, c2, c3, c4, s3, d1, d2, d3, d4]).data = [a1, a2, a3, a4, s1, b1, b2, b3, b4, s2, c1, c2, c3, c4, s3, d1, d2, d3, d4] from rfl,
      show ([a1, a2, a3, a4, s1, b1, b2, b3, b4, s2, c1, c2, c3, c4, s3, d1, d2, d3, d4] : List Char).length = 19 from rfl,
      replScan_cons_match 19 creditCardRE _ none [a1, a2, a3, a4, s1, b1, b2, b3, b4, s2, c1, c2, c3, c4, s3, d1, d2, d3, d4] 18 hcard]
    rw [show ([a1, a2, a3, a4, s1, b1, b2, b3, b4, s2, c1, c2, c3, c4, s3, d1, d2, d3, d4] : List Char).take (18 + 1) = [a1, a2, a3, a4, s1, b1, b2, b3, b4, s2, c1, c2, c3, c4, s3, d1, d2, d3, d4] from rfl,
      show ([a1, a2, a3, a4, s1, b1, b2, b3, b4, s2, c1, c2, c3, c4, s3, d1, d2, d3, d4] : List Char).drop (18 + 1) = [] from rfl,
      show ([a1, a2, a3, a4, s1, b1, b2, b3, b4, s2, c1, c2, c3, c4, s3, d1, d2, d3, d4] : List Char).getLast? = some d4 from rfl]
    rw [replScan_nil 19 creditCardRE _ (some d4) hnil, List.append_nil]
    show String.mk ((creditCardMask (String.mk [a1, a2, a3, a4, s1, b1, b2, b3, b4, s2, c1, c2, c3, c4, s3, d1, d2, d3, d4]) (mergeOptions (some (privacyStrategyMap .low)))).data) = String.mk ['*', '*', '*', '*', '*', '*', '*', '*', '*', '*', '*', '*', d1, d2, d3, d4]
    rw [hcc]
  have e1 := replaceAll_id emailRE (fun m => emailMask m (mergeOptions (some (privacyStrategyMap .low)))) (String.mk [a1, a2, a3, a4, s1, b1, b2, b3, b4, s2, c1, c2, c3, c4, s3, d1, d2, d3, d4]) hescan
  have e2 := replaceAll_id phoneRE (fun m => phoneMask m (mergeOptions (some (privacyStrategyMap .low)))) (String.mk [a1, a2, a3, a4, s1, b1, b2, b3, b4, s2, c1, c2, c3, c4, s3, d1, d2, d3, d4]) hpscan
  have e3 := replaceAll_id ssnRE (fun m => ssnMask m (mergeOptions (some (privacyStrategyMap .low)))) (String.mk [a1, a2, a3, a4, s1, b1, b2, b3, b4, s2, c1, c2, c3, c4, s3, d1, d2, d3, d4]) hsscan
  have e5 := replaceAll_id addressRE (fun m => addressMask m (mergeOptions (some (privacyStrategyMap .low)))) (String.mk ['*', '*', '*', '*', '*', '*', '*', '*', '*', '*', '*', '*', d1, d2, d3, d4]) hascan
  have e6 := replaceAll_id nameRE (fun m => nameMask m (mergeOptions (some (privacyStrategyMap .low)))) (String.mk ['*', '*', '*', '*', '*', '*', '*', '*', '*', '*', '*', '*', d1, d2, d3, d4]) hnscan
  simp only [detectAndMaskPII]
  show (PII_PATTERNS.foldl
    (fun t p => replaceAll p.regex (fun m => p.mask m (mergeOptions (some (privacyStrategyMap .low)))) t) (String.mk [a1, a2, a3, a4, s1, b1, b2, b3, b4, s2, c1, c2, c3, c4, s3, d1, d2, d3, d4])) =
    String.mk ['*', '*', '*', '*', '*', '*', '*', '*', '*', '*', '*', '*', d1, d2, d3, d4]
  simp only [PII_PATTERNS, List.foldl]
  rw [e1, e2, e3, e4, e5, e6]

/-- Witness for `creditCard_partial_keeps_last_four` at the concrete card
`4539-5787-6362-1486` with hyphen separators. -/
theorem creditCard_partial_keeps_last_four_witness :
    detectAndMaskPII
        (String.mk ['4', '5', '3', '9', '-', '5', '7', '8', '7', '-', '6', '3', '6', '2', '-',
          '1', '4', '8', '6'])
        (some (privacyStrategyMap .low)) =
      String.mk ['*', '*', '*', '*', '*', '*', '*', '*', '*', '*', '*', '*', '1', '4', '8', '6'] :=
  creditCard_partial_keeps_last_four '4' '5' '3' '9' '5' '7' '8' '7' '6' '3' '6' '2'
    '1' '4' '8' '6' '-' '-' '-'
    (by decide) (by decide) (by decide) (by decide) (by decide) (by decide) (by decide) (by decide)
    (by decide) (by decide) (by decide) (by decide) (by decide) (by decide) (by decide) (by decide)
    (Or.inr rfl) (Or.inr rfl) (Or.inr rfl)

/-- C4 (counterexample): resolving an unrecognized level does not fail: the
lookup yields `undefined` and the masking path proceeds with the built-in
defaults (redaction), so the default is silently substituted. -/
theorem unknown_level_silently_defaults :
    privacyStrategyMapGet "extreme" = none ∧
    maskPIIAtLevel "extreme" "Contact a@b.com now" = "Contact [EMAIL REDACTED] now" ∧
    maskPIIAtLevel "extreme" "Contact a@b.com now" = detectAndMaskPII "Contact a@b.com now" none := by
  exact ⟨rfl, by decide, rfl⟩

/-- C4 (amended): the four recognized levels resolve to their documented
presets; an unrecognized level string resolves to no preset, and the
masking path then behaves exactly as a call with no options (the built-in
defaults), raising no error. -/
theorem privacyStrategyMap_presets_and_unknown_fallback :
    privacyStrategyMap .low = ⟨some .partialReveal, some true, some 4⟩ ∧
    privacyStrategyMap .medium = ⟨some .partialReveal, some true, some 2⟩ ∧
    privacyStrategyMap .high = ⟨some .redact, some false, none⟩ ∧
    privacyStrategyMap .maximum = ⟨some .hash, some false, none⟩ ∧
    (∀ s : String, isValidPrivacyLevel s = false →
      privacyStrategyMapGet s = none ∧
      ∀ t : String, maskPIIAtLevel s t = detectAndMaskPII t none) := by
  refine ⟨rfl, rfl, rfl, rfl, ?_⟩
  intro s h
  have h1 : s ≠ "low" := by
    intro e; subst e; exact absurd h (by decide)
  have h2 : s ≠ "medium" := by
    intro e; subst e; exact absurd h (by decide)
  have h3 : s ≠ "high" := by
    intro e; subst e; exact absurd h (by decide)
  have h4 : s ≠ "maximum" := by
    intro e; subst e; exact absurd h (by decide)
  have hp : parsePrivacyLevel s = none := by
    simp [parsePrivacyLevel, h1, h2, h3, h4]
  constructor
  · simp [privacyStrategyMapGet, hp]
  · intro t
    simp [maskPIIAtLevel, privacyStrategyMapGet, hp]

/-- Witness for `privacyStrategyMap_presets_and_unknown_fallback` at the
unrecognized level string `extreme`. -/
theorem privacyStrategyMap_unknown_fallback_witness :
    isValidPrivacyLevel "extreme" = false ∧
    privacyStrategyMapGet "extreme" = none ∧
    maskPIIAtLevel "extreme" "hello" = detectAndMaskPII "hello" none :=
  ⟨by decide,
   (privacyStrategyMap_presets_and_unknown_fallback.2.2.2.2 "extreme" (by decide)).1,
   (privacyStrategyMap_presets_and_unknown_fallback.2.2.2.2 "extreme" (by decide)).2 "hello"⟩

/-- C5 (counterexample): `90210` is exactly one instance of the postal-code
pattern the specification lists as a recognized category, yet the engine
neither flags nor classifies it: the catalog has no postal-code entry. -/
theorem postal_code_not_detected :
    analyzeText "90210" = (false, []) ∧
    (containsPII initPatternState "90210").1 = false := by
  exact ⟨by decide, by decide⟩

/-- C5 (amended): the catalog recognizes six categories, email, phone, ssn,
creditCard, address and name; for each of the six, a crafted sample holding
one instance is flagged by `containsPII` (from fresh regex state) and its
tag is listed by `analyzeText`.  A bare postal code is not among them. -/
theorem six_catalog_categories_detected :
    ((containsPII initPatternState "john@example.com").1 = true ∧
      "email" ∈ (analyzeText "john@example.com").2) ∧
    ((containsPII initPatternState "555-123-4567").1 = true ∧
      "phone" ∈ (analyzeText "555-123-4567").2) ∧
    ((containsPII initPatternState "123-45-6789").1 = true ∧
      "ssn" ∈ (analyzeText "123-45-6789").2) ∧
    ((containsPII initPatternState "4111 1111 1111 1111").1 = true ∧
      "creditCard" ∈ (analyzeText "4111 1111 1111 1111").2) ∧
    ((containsPII initPatternState "123 Main St, Springfield, IL 62704").1 = true ∧
      "address" ∈ (analyzeText "123 Main St, Springfield, IL 62704").2) ∧
    ((containsPII initPatternState "Dr. Jane Smith").1 = true ∧
      "name" ∈ (analyzeText "Dr. Jane Smith").2) := by
  decide

/-- C6 (code bug): `containsPII` is not a pure function of its text: the
`g`-flagged regexes keep their mutated `lastIndex` between calls, so two
successive calls on the same text disagree (`true`, then `false`). -/
theorem containsPII_second_call_flips :
    (containsPII initPatternState "a@b.com").1 = true ∧
    (containsPII (containsPII initPatternState "a@b.com").2 "a@b.com").1 = false := by
  exact ⟨by decide, by decide⟩

/-- C7 (counterexample): under the hash preset a phone match is not replaced
by a digest marker: it falls through to the fixed `[PHONE PROTECTED]`
placeholder. -/
theorem hash_strategy_phone_no_digest :
    detectAndMaskPII "555-123-4567" (some (privacyStrategyMap .maximum)) =
      "[PHONE PROTECTED]" ∧
    "[PHONE PROTECTED]" ≠ "[HASHED:" ++ hashData "555-123-4567" ++ "]" := by
  exact ⟨by decide, by decide⟩

/-- C7 (amended): under the hash strategy only the email masker embeds a
digest, `[HASHED:` followed by the deterministic `hashData` of the match;
phone, ssn and creditCard matches fall through to their fixed PROTECTED
placeholders, and address and name are always fully redacted. -/
theorem hash_strategy_only_email_digest :
    ∀ (m : String) (o : PIIDetectorOptions), o.strategy = .hash →
      emailMask m o = "[HASHED:" ++ hashData m ++ "]" ∧
      phoneMask m o = "[PHONE PROTECTED]" ∧
      ssnMask m o = "[SSN PROTECTED]" ∧
      creditCardMask m o = "[PAYMENT INFO PROTECTED]" ∧
      addressMask m o = "[ADDRESS REDACTED]" ∧
      nameMask m o = "[NAME REDACTED]" := by
  intro m o h
  refine ⟨?_, ?_, ?_, ?_, rfl, rfl⟩ <;>
    simp [emailMask, phoneMask, ssnMask, creditCardMask, h]

/-- Witness for `hash_strategy_only_email_digest` at the maximum preset. -/
theorem hash_strategy_only_email_digest_witness :
    (mergeOptions (some (privacyStrategyMap .maximum))).strategy = .hash ∧
    emailMask "a@b.co" (mergeOptions (some (privacyStrategyMap .maximum))) =
      "[HASHED:" ++ hashData "a@b.co" ++ "]" :=
  ⟨by decide,
   (hash_strategy_only_email_digest "a@b.co"
     (mergeOptions (some (privacyStrategyMap .maximum))) (by decide)).1⟩

/-- C8 (confirmed): the recursive structure masking handles null,
primitives, sequences and maps: on the nested example both email leaves are
replaced and the number is untouched, and in general numbers and booleans
pass through, string leaves go through `detectAndMaskPII`, and sequences
and maps are rebuilt recursively. -/
theorem maskObjectPii_structure :
    maskObjectPii structureExample =
      .obj [("user", .obj [("email", .str "[EMAIL REDACTED]"), ("age", .num 30)]),
            ("tags", .arr [.str "[EMAIL REDACTED]"])] ∧
    maskObjectPii .null = .null ∧
    (∀ n : Int, maskObjectPii (.num n) = .num n) ∧
    (∀ b : Bool, maskObjectPii (.bool b) = .bool b) ∧
    (∀ s : String, maskObjectPii (.str s) = .str (detectAndMaskPII s none)) ∧
    (∀ xs : List Json, maskObjectPii (.arr xs) = .arr (xs.map maskObjectPii)) ∧
    (∀ fs : List (String × Json),
      maskObjectPii (.obj fs) = .obj (fs.map (fun f => (f.1, maskObjectPii f.2)))) := by
  refine ⟨rfl, rfl, fun _ => rfl, fun _ => rfl, fun _ => rfl, ?_, ?_⟩
  · intro xs
    simp [maskObjectPii, maskObjectPiiList_eq_map]
  · intro fs
    simp [maskObjectPii, maskObjectPiiFields_eq_map]

/-- C9 (confirmed): with no persisted state, whether absent or stored as
falsy empty strings, the Policy Context starts from the fixed defaults,
level medium, all categories enabled, consent false; and when the
persisted state fails to parse (invalid level string, corrupt non-empty
consent JSON) the load falls back to the same defaults, taking the
logging error path instead of throwing. -/
theorem privacy_defaults_on_absent_or_unparsable :
    loadPrivacySettings none none none = (defaultProviderState, false) ∧
    defaultProviderState.privacyLevel = .medium ∧
    defaultProviderState.hasConsent = .bool false ∧
    defaultProviderState.protectedDataTypes = defaultProtectedDataTypes ∧
    loadPrivacySettings (some "") (some "") (some "") = (defaultProviderState, false) ∧
    (∀ l c : String, ∀ d : Option String,
      isValidPrivacyLevel l = false → c.data.isEmpty = false → jsonParse c = none →
      loadPrivacySettings (some l) (some c) d = (defaultProviderState, true)) := by
  refine ⟨rfl, rfl, rfl, rfl, rfl, ?_⟩
  intro l c d hl hne hp
  have hct : truthyStore (some c) = true := by simp [truthyStore, hne]
  unfold loadPrivacySettings
  rw [hct]
  cases hlt : truthyStore (some l) <;> simp [hl, hp]

/-- Witness for `privacy_defaults_on_absent_or_unparsable` at concrete
corrupt stored values. -/
theorem privacy_defaults_witness :
    isValidPrivacyLevel "garbage" = false ∧
    ("\x7d\x7b" : String).data.isEmpty = false ∧
    jsonParse "\x7d\x7b" = none ∧
    loadPrivacySettings (some "garbage") (some "\x7d\x7b") (some "also bad") =
      (defaultProviderState, true) :=
  ⟨by decide, rfl, rfl,
   privacy_defaults_on_absent_or_unparsable.2.2.2.2.2 "garbage" "\x7d\x7b" (some "also bad")
     (by decide) rfl rfl⟩

/-- C10 (confirmed): under the `tokenize` strategy every masker falls
through to its fixed placeholder, `[EMAIL PROTECTED]`, `[PHONE PROTECTED]`,
`[SSN PROTECTED]`, `[PAYMENT INFO PROTECTED]`, and address and name stay
fully redacted; no output depends on the matched text, so no reversible
token embedding the original value is produced. -/
theorem tokenize_strategy_fixed_placeholders :
    ∀ (m : String) (o : PIIDetectorOptions), o.strategy = .tokenize →
      emailMask m o = "[EMAIL PROTECTED]" ∧
      phoneMask m o = "[PHONE PROTECTED]" ∧
      ssnMask m o = "[SSN PROTECTED]" ∧
      creditCardMask m o = "[PAYMENT INFO PROTECTED]" ∧
      addressMask m o = "[ADDRESS REDACTED]" ∧
      nameMask m o = "[NAME REDACTED]" := by
  intro m o h
  refine ⟨?_, ?_, ?_, ?_, rfl, rfl⟩ <;>
    simp [emailMask, phoneMask, ssnMask, creditCardMask, h]

/-- Witness for `tokenize_strategy_fixed_placeholders` at concrete options
and match text. -/
theorem tokenize_strategy_fixed_placeholders_witness :
    (PIIDetectorOptions.mk .tokenize true (some 4)).strategy = .tokenize ∧
    emailMask "john@example.com" (PIIDetectorOptions.mk .tokenize true (some 4)) =
      "[EMAIL PROTECTED]" :=
  ⟨rfl,
   (tokenize_strategy_fixed_placeholders "john@example.com"
     (PIIDetectorOptions.mk .tokenize true (some 4)) rfl).1⟩


end AgentExplainer
